import Mathlib

/-
Verification of the SortEX media sorter core (date resolution, Live-Photo
pairing, unique-path planning and the relocation worker) against its
natural-language specification.  The Python source is shallowly embedded:
filesystem paths are lists of components, the filesystem is the list of
existing paths, and the external collaborators (EXIF reader, stat, the
copy/move syscall) are explicit function-valued parameters of an
environment record.  Exceptions raised by a collaborator are modelled as
Option-valued results.
-/

namespace Sortex

/-- A resolved calendar timestamp, the shallow embedding of a Python
datetime value as produced by datetime.strptime or
datetime.fromtimestamp. -/
structure DateTime where
  year : Nat
  month : Nat
  day : Nat
  hour : Nat
  minute : Nat
  second : Nat
deriving DecidableEq

/-- A filesystem path, as its list of components from the root.
pathlib.Path objects of the source are embedded this way; the string
rendering joins components with a slash. -/
abbrev Pth := List String

/-- IMAGE_EXTS of the source. -/
def IMAGE_EXTS : List String :=
  [".jpg", ".jpeg", ".png", ".tif", ".tiff", ".heic", ".heif", ".webp"]

/-- VIDEO_EXTS of the source. -/
def VIDEO_EXTS : List String :=
  [".mov", ".mp4", ".avi", ".mpeg"]

/-- UNKNOWN_DIR_NAME of the source: folder for files without a date. -/
def UNKNOWN_DIR_NAME : String := "unknown-date"

/-- Final component of a path (pathlib name). -/
def pathName (p : Pth) : String := p.getLastD ""

/-- Index of the last dot of a character list, if any. -/
def lastDotIdx (s : List Char) : Option Nat :=
  (List.range s.length).foldl
    (fun acc i => if s.get? i = some '.' then some i else acc) none

/-- Split a file name into pathlib stem and suffix: the suffix starts at
the last dot provided that dot is neither the first nor the last
character (the rule of pathlib PurePath). -/
def splitName (nm : String) : String × String :=
  let cs := nm.toList
  match lastDotIdx cs with
  | some i =>
      if 0 < i ∧ i < cs.length - 1 then (⟨cs.take i⟩, ⟨cs.drop i⟩) else (nm, "")
  | none => (nm, "")

/-- pathlib stem of the final component. -/
def stemOf (p : Pth) : String := (splitName (pathName p)).1

/-- pathlib suffix (extension with dot) of the final component. -/
def suffixOf (p : Pth) : String := (splitName (pathName p)).2

/-- Parent directory (pathlib parent). -/
def parentOf (p : Pth) : Pth := p.dropLast

/-- String rendering of a path, used for the lexicographic comparisons
performed by sorted() on pathlib paths. -/
def pathStr (p : Pth) : String := String.intercalate "/" p

/-- ASCII lowercase of one character, the relevant fragment of
str.lower for extension strings. -/
def lowerCh (c : Char) : Char :=
  if 65 ≤ c.toNat ∧ c.toNat ≤ 90 then Char.ofNat (c.toNat + 32) else c

/-- Lowercasing of a string, as the source lowercases suffixes before
set membership tests. -/
def strLower (s : String) : String := ⟨s.toList.map lowerCh⟩

/-- is_image_file of the source. -/
def is_image_file (p : Pth) : Bool := IMAGE_EXTS.contains (strLower (suffixOf p))

/-- is_video_file of the source. -/
def is_video_file (p : Pth) : Bool := VIDEO_EXTS.contains (strLower (suffixOf p))

/-! ### Decimal rendering, the embedding of Python number formatting -/

/-- The character of a single decimal digit. -/
def digitCh : Nat → Char
  | 0 => '0' | 1 => '1' | 2 => '2' | 3 => '3' | 4 => '4'
  | 5 => '5' | 6 => '6' | 7 => '7' | 8 => '8' | 9 => '9'
  | _ => '*'

/-- Big-endian decimal digits of a positive number; the first argument is
fuel, always called with fuel at least the number itself. -/
def toDecimalAux : Nat → Nat → List Char
  | 0, _ => []
  | _ + 1, 0 => []
  | fuel + 1, n + 1 =>
      toDecimalAux fuel ((n + 1) / 10) ++ [digitCh ((n + 1) % 10)]

/-- Decimal rendering of a natural number, the embedding of the str()
conversion a Python f-string performs on an int. -/
def natStr (n : Nat) : String :=
  if n = 0 then "0" else ⟨toDecimalAux n n⟩

/-- Embedding of the format specifier 02d: zero-pad to width two, wider
numbers are rendered unpadded. -/
def pad2 (n : Nat) : String :=
  if n < 10 then "0" ++ natStr n else natStr n

/-- build_target_dirname of the source.  Note that the source formats the
year with the specifier 02d, exactly as the month. -/
def build_target_dirname (dt : DateTime) : String :=
  let mm := pad2 dt.month
  let yyyy := pad2 dt.year
  yyyy ++ "-" ++ mm

/-! ### EXIF datetime parsing (datetime.strptime on the six formats) -/

/-- Numeric value of a digit character. -/
def digitVal (c : Char) : Nat := c.toNat - 48

/-- Take the leading run of decimal digits. -/
def takeDigits : List Char → List Char × List Char
  | [] => ([], [])
  | c :: t =>
      if c.isDigit then
        let r := takeDigits t
        (c :: r.1, r.2)
      else ([], c :: t)

/-- Value of a digit run, most significant first. -/
def digitsToNat (ds : List Char) : Nat :=
  ds.foldl (fun a c => a * 10 + digitVal c) 0

/-- Consume one expected character. -/
def expectChar (c : Char) : List Char → Option (List Char)
  | x :: t => if x = c then some t else none
  | [] => none

/-- Consume at least one space, the strptime reading of a literal blank
in the format string. -/
def parseSpaces : List Char → Option (List Char)
  | ' ' :: t => some (t.dropWhile (fun c => c = ' '))
  | _ => none

/-- A four-digit year field (the strptime directive for years matches
exactly four digits). -/
def parseYear (cs : List Char) : Option (Nat × List Char) :=
  let r := takeDigits cs
  if r.1.length = 4 then some (digitsToNat r.1, r.2) else none

/-- A one-or-two digit field constrained to a closed interval, the
strptime reading of the month, day, hour, minute and second
directives combined with the range check of the datetime constructor. -/
def parseField2 (lo hi : Nat) (cs : List Char) : Option (Nat × List Char) :=
  let r := takeDigits cs
  if r.1.length = 0 ∨ 2 < r.1.length then none
  else
    let v := digitsToNat r.1
    if lo ≤ v ∧ v ≤ hi then some (v, r.2) else none

/-- Leap year rule of the Gregorian calendar, as the datetime module
validates the day of the month. -/
def isLeapYear (y : Nat) : Bool :=
  (y % 4 == 0 && y % 100 != 0) || y % 400 == 0

/-- Number of days of a month, as the datetime constructor validates. -/
def daysInMonth (y mo : Nat) : Nat :=
  if mo = 2 then (if isLeapYear y then 29 else 28)
  else if mo = 4 ∨ mo = 6 ∨ mo = 9 ∨ mo = 11 then 30
  else 31

/-- Validation the datetime constructor performs after a textual match:
the year is positive and the day fits the month.  A failure raises
ValueError in the source, which parse_exif_datetime swallows before
trying the next format. -/
def mkDatetime (y mo d h mi s : Nat) : Option DateTime :=
  if 1 ≤ y ∧ 1 ≤ d ∧ d ≤ daysInMonth y mo then some ⟨y, mo, d, h, mi, s⟩
  else none

/-- One strptime format of the source: year, date separator, month, date
separator, day, blank, hour, colon, minute and optionally colon and
second, consuming the whole string. -/
def parseFixed (sep : Char) (withSec : Bool) (s : List Char) : Option DateTime := do
  let y ← parseYear s
  let r2 ← expectChar sep y.2
  let mo ← parseField2 1 12 r2
  let r4 ← expectChar sep mo.2
  let d ← parseField2 1 31 r4
  let r6 ← parseSpaces d.2
  let h ← parseField2 0 23 r6
  let r8 ← expectChar ':' h.2
  let mi ← parseField2 0 59 r8
  if withSec then
    let r10 ← expectChar ':' mi.2
    let sec ← parseField2 0 59 r10
    if sec.2 = [] then mkDatetime y.1 mo.1 d.1 h.1 mi.1 sec.1 else none
  else
    if mi.2 = [] then mkDatetime y.1 mo.1 d.1 h.1 mi.1 0 else none

/-- parse_exif_datetime of the source: an empty value is rejected, then
the six accepted formats are tried in order until one matches. -/
def parse_exif_datetime (value : String) : Option DateTime :=
  if value = "" then none
  else
    [(':', true), (':', false), ('-', true), ('-', false), ('/', true), ('/', false)].findSome?
      (fun fmt => parseFixed fmt.1 fmt.2 value.toList)

/-! ### The date resolver (get_image_datetime and the worker fallback) -/

/-- _EXIF_DATETIME_CANDIDATES of the source, in its fixed priority
order. -/
def _EXIF_DATETIME_CANDIDATES : List String :=
  ["DateTimeOriginal", "CreateDate", "DateTimeDigitized", "DateTime"]

/-- The candidate scan inside get_image_datetime: the first candidate tag
that is present in the EXIF mapping and whose value parses wins;
candidates that are present but do not parse are passed over. -/
def scanExif (m : List (String × String)) : Option DateTime :=
  _EXIF_DATETIME_CANDIDATES.findSome?
    (fun k => (m.lookup k).bind parse_exif_datetime)

/-- The filesystem fallback shared by both branches of the resolver: the
last-modification time with tag mtime, or no result when even stat
fails. -/
def mtimeFallback (mt : Option DateTime) : Option DateTime × Option String :=
  match mt with
  | some t => (some t, some "mtime")
  | none => (none, none)

/-- get_image_datetime of the source.  The first argument models the
Image.open plus getexif step: none is a raised exception, swallowed by
the bare except of the source; the second models stat st_mtime, with
none a raised exception again. -/
def get_image_datetime (exifm : Option (List (String × String)))
    (mt : Option DateTime) : Option DateTime × Option String :=
  match exifm with
  | some m =>
      match scanExif m with
      | some dt => (some dt, some "exif")
      | none => mtimeFallback mt
  | none => mtimeFallback mt

/-- The provenance vocabulary of the specification; the source renders
metadata as the string exif and filesystem as the string mtime. -/
inductive Provenance where
  | metadata
  | filesystem
  | unknown
deriving DecidableEq

/-- Reading of the source-level tag as the provenance of the
specification. -/
def sourceProvenance : Option String → Provenance
  | some s =>
      if s = "exif" then Provenance.metadata
      else if s = "mtime" then Provenance.filesystem
      else Provenance.unknown
  | none => Provenance.unknown

/-! ### ensure_unique_path -/

/-- Decimal decoding, a left inverse of the rendering used to prove the
rendering injective. -/
def decodeDec (l : List Char) : Nat :=
  l.foldl (fun a c => a * 10 + digitVal c) 0

theorem digitVal_digitCh (m : Nat) (h : m < 10) : digitVal (digitCh m) = m := by
  interval_cases m <;> rfl

theorem decodeDec_append (l : List Char) (d : Char) :
    decodeDec (l ++ [d]) = decodeDec l * 10 + digitVal d := by
  simp [decodeDec, List.foldl_append]

theorem decodeDec_toDecimalAux (fuel n : Nat) (h : n ≤ fuel) :
    decodeDec (toDecimalAux fuel n) = n := by
  induction fuel generalizing n with
  | zero =>
      have : n = 0 := Nat.le_zero.mp h
      subst this
      rfl
  | succ f ih =>
      match n with
      | 0 => rfl
      | n + 1 =>
          have hdiv : (n + 1) / 10 ≤ f := by
            have h1 : (n + 1) / 10 < n + 1 := Nat.div_lt_self (Nat.succ_pos n) (by norm_num)
            omega
          rw [toDecimalAux, decodeDec_append,
            digitVal_digitCh _ (Nat.mod_lt _ (by norm_num)), ih _ hdiv]
          rw [Nat.mul_comm]
          exact Nat.div_add_mod (n + 1) 10

theorem decodeDec_natStr (n : Nat) : decodeDec (natStr n).data = n := by
  by_cases h : n = 0
  · subst h; rfl
  · rw [natStr, if_neg h]
    exact decodeDec_toDecimalAux n n le_rfl

theorem natStr_injective : Function.Injective natStr := by
  intro a b hab
  have : decodeDec (natStr a).data = decodeDec (natStr b).data := by rw [hab]
  rwa [decodeDec_natStr, decodeDec_natStr] at this

/-- The running-suffix candidate of ensure_unique_path: the name with
an underscore and the counter inserted before the extension, placed in
the same directory. -/
def uniqueCand (target : Pth) (i : Nat) : Pth :=
  parentOf target ++ [stemOf target ++ "_" ++ natStr i ++ suffixOf target]

theorem string_data_append (a b : String) : (a ++ b).data = a.data ++ b.data := rfl

theorem uniqueCand_injective (target : Pth) :
    Function.Injective (uniqueCand target) := by
  intro i j h
  have h1 : stemOf target ++ "_" ++ natStr i ++ suffixOf target
      = stemOf target ++ "_" ++ natStr j ++ suffixOf target := by
    have := List.append_cancel_left h
    exact List.head_eq_of_cons_eq this
  have h2 : (stemOf target ++ "_" ++ natStr i ++ suffixOf target).data
      = (stemOf target ++ "_" ++ natStr j ++ suffixOf target).data := by rw [h1]
  simp only [string_data_append] at h2
  have h3 := List.append_cancel_left (List.append_cancel_right h2)
  have h4 : decodeDec (natStr i).data = decodeDec (natStr j).data := by rw [h3]
  rwa [decodeDec_natStr, decodeDec_natStr] at h4

/-- The wait-for-a-free-name loop of ensure_unique_path, with a fuel
bound making the recursion structural.  ensure_unique_path calls it with
fuel one larger than the number of existing paths, which the pigeonhole
lemma below shows is always enough, so the out-of-fuel branch is
unreachable. -/
def findFreeAux (fs : List Pth) (target : Pth) : Nat → Nat → Pth
  | 0, i => uniqueCand target i
  | fuel + 1, i =>
      if uniqueCand target i ∈ fs then findFreeAux fs target fuel (i + 1)
      else uniqueCand target i

/-- ensure_unique_path of the source: an unoccupied target is returned
unchanged, otherwise the candidates with suffixes _1, _2, and so on are
scanned and the first unoccupied one is returned. -/
def ensure_unique_path (fs : List Pth) (target : Pth) : Pth :=
  if target ∈ fs then findFreeAux fs target (fs.length + 1) 1
  else target

/-- The literal while loop of ensure_unique_path with an explicit fuel
bound and an out-of-fuel result none, used to state that the unbounded
source loop terminates. -/
def uniqueLoop (fs : List Pth) (target : Pth) : Nat → Nat → Option Pth
  | 0, _ => none
  | fuel + 1, i =>
      if uniqueCand target i ∈ fs then uniqueLoop fs target fuel (i + 1)
      else some (uniqueCand target i)

/-- The loop of ensure_unique_path always finds a free candidate within
one more step than the number of existing paths: only finitely many
paths exist and the candidates are pairwise distinct. -/
theorem exists_free_cand_lt (fs : List Pth) (target : Pth) :
    ∃ k, k < fs.length + 1 ∧ uniqueCand target (1 + k) ∉ fs := by
  by_contra hc
  push_neg at hc
  have hmaps : ∀ k ∈ (Finset.univ : Finset (Fin (fs.length + 1))),
      uniqueCand target (1 + k.1) ∈ fs.toFinset :=
    fun k _ => List.mem_toFinset.mpr (hc k.1 k.2)
  have hinj : Set.InjOn (fun k : Fin (fs.length + 1) => uniqueCand target (1 + k.1))
      (Finset.univ : Finset (Fin (fs.length + 1))) := by
    intro a _ b _ hab
    have := uniqueCand_injective target hab
    exact Fin.ext (by omega)
  have hcard := Finset.card_le_card_of_injOn
    (fun k : Fin (fs.length + 1) => uniqueCand target (1 + k.1)) hmaps hinj
  have h2 : fs.toFinset.card ≤ fs.length := fs.toFinset_card_le
  simp only [Finset.card_univ, Fintype.card_fin] at hcard
  omega

/-- Characterization of the bounded search: given that a free candidate
exists within the fuel, the search returns the first free candidate at
or after the start index. -/
theorem findFreeAux_spec (fs : List Pth) (target : Pth) :
    ∀ fuel i, (∃ k, k < fuel ∧ uniqueCand target (i + k) ∉ fs) →
      ∃ k, k < fuel ∧ uniqueCand target (i + k) ∉ fs ∧
        (∀ l, l < k → uniqueCand target (i + l) ∈ fs) ∧
        findFreeAux fs target fuel i = uniqueCand target (i + k) := by
  intro fuel
  induction fuel with
  | zero =>
      intro i h
      obtain ⟨k, hk, _⟩ := h
      omega
  | succ f ih =>
      intro i h
      by_cases h0 : uniqueCand target i ∈ fs
      · obtain ⟨k, hk, hfree⟩ := h
        have hkpos : k ≠ 0 := by
          intro h1
          subst h1
          simp at hfree
          exact hfree h0
        have hnext : ∃ k, k < f ∧ uniqueCand target (i + 1 + k) ∉ fs := by
          refine ⟨k - 1, by omega, ?_⟩
          have : i + 1 + (k - 1) = i + k := by omega
          rwa [this]
        obtain ⟨k2, hk2, hfree2, hmin2, heq2⟩ := ih (i + 1) hnext
        refine ⟨k2 + 1, by omega, ?_, ?_, ?_⟩
        · have : i + (k2 + 1) = i + 1 + k2 := by omega
          rwa [this]
        · intro l hl
          match l with
          | 0 => simpa using h0
          | l + 1 =>
              have := hmin2 l (by omega)
              have h2 : i + (l + 1) = i + 1 + l := by omega
              rwa [h2]
        · rw [findFreeAux, if_pos h0, heq2]
          congr 1
          omega
      · refine ⟨0, by omega, by simpa using h0, by omega, ?_⟩
        rw [findFreeAux, if_neg h0]
        simp

/-! ### The Grouper (_pair_live_photos) -/

/-- Update of an insertion-ordered association list at a key, inserting
the default first when the key is absent: the embedding of the Python
dict setdefault pattern. -/
def upsert {α β : Type} [DecidableEq α] (k : α) (f : β → β) (d : β) :
    List (α × β) → List (α × β)
  | [] => [(k, f d)]
  | (a, b) :: t => if a = k then (a, f b) :: t else (a, b) :: upsert k f d t

/-- Lexicographic comparison of character lists by code point, the
order Python uses on strings. -/
def charListLt : List Char → List Char → Bool
  | [], [] => false
  | [], _ :: _ => true
  | _ :: _, [] => false
  | a :: as, b :: bs =>
      if a.toNat < b.toNat then true
      else if b.toNat < a.toNat then false
      else charListLt as bs

/-- Strict lexicographic order on strings by code point. -/
def strLt (a b : String) : Bool := charListLt a.data b.data

/-- Stable insertion into a list ordered by the path string, matching
the total order sorted() uses on pathlib paths. -/
def insertSorted (p : Pth) : List Pth → List Pth
  | [] => [p]
  | q :: t =>
      if strLt (pathStr q) (pathStr p) then q :: insertSorted p t
      else p :: q :: t

/-- Stable sort by path string; the embedding of sorted() on paths. -/
def sortPaths (l : List Pth) : List Pth := l.foldr insertSorted []

/-- Deduplication preserving the first occurrence, the embedding of
list(dict.fromkeys(singles)). -/
def dedupFirstAux {α : Type} [DecidableEq α] : List α → List α → List α
  | _, [] => []
  | seen, a :: t =>
      if a ∈ seen then dedupFirstAux seen t
      else a :: dedupFirstAux (a :: seen) t

/-- Deduplication preserving the first occurrence. -/
def dedupFirst {α : Type} [DecidableEq α] (l : List α) : List α :=
  dedupFirstAux [] l

/-- The nested dictionary by_dir of _pair_live_photos: files bucketed by
parent directory, then by filename stem, in insertion order. -/
def by_dir (files : List Pth) : List (Pth × List (String × List Pth)) :=
  files.foldl
    (fun acc p =>
      upsert (parentOf p) (fun bucket => upsert (stemOf p) (fun l => l ++ [p]) [] bucket) [] acc)
    []

/-- Processing of one (stem, items) bucket, accumulating the pairs
dictionary and the singles list exactly as the loop body of
_pair_live_photos does. -/
def pairBucketStep (acc : List (Pth × List Pth) × List Pth) (items : List Pth) :
    List (Pth × List Pth) × List Pth :=
  let images := items.filter is_image_file
  let videos := items.filter is_video_file
  if !images.isEmpty && !videos.isEmpty then
    let master := (sortPaths images).headD []
    (upsert master (fun l => l ++ sortPaths videos) [] acc.1,
     acc.2 ++ images.drop 1)
  else (acc.1, acc.2 ++ items)

/-- All files referenced by the pairs dictionary, master keys and
companion videos alike (the set in_pairs of the source). -/
def inPairs (pairs : List (Pth × List Pth)) : List Pth :=
  pairs.foldl (fun acc mv => acc ++ [mv.1] ++ mv.2) []

/-- _pair_live_photos of the source: bucket by directory and stem, pair
the lexicographically smallest image of a mixed bucket with all the
videos of that bucket, then deduplicate the singles and remove from them
everything referenced by a pair. -/
def pair_live_photos (files : List Pth) : List (Pth × List Pth) × List Pth :=
  let bd := by_dir files
  let ps := bd.foldl
    (fun acc dirEntry =>
      dirEntry.2.foldl (fun acc2 stemEntry => pairBucketStep acc2 stemEntry.2) acc)
    (([], []) : List (Pth × List Pth) × List Pth)
  let singles1 := dedupFirst ps.2
  (ps.1, singles1.filter (fun p => !(inPairs ps.1).contains p))

/-! ### The relocation engine (_worker and move_or_copy) -/

/-- The configuration surface of one run: the dry_run argument of
_worker and the copy_mode and include_unknown options of the
application. -/
structure Options where
  dry_run : Bool
  copy_mode : Bool
  include_unknown : Bool

/-- The external collaborators of one run.  exifOf models Image.open
followed by getexif, none being a raised exception; mtimeOf models stat
st_mtime converted by datetime.fromtimestamp, none being a raised
exception; relocFails models shutil.copy2 or shutil.move raising for a
given source path, carrying the rendered exception text. -/
structure Env where
  exifOf : Pth → Option (List (String × String))
  mtimeOf : Pth → Option DateTime
  relocFails : Pth → Option String

/-- mkdir with parents=True and exist_ok=True: the directory and all its
ancestors come to exist. -/
def mkdirParents (d : Pth) (fs : List Pth) : List Pth :=
  fs ++ (List.range d.length).map (fun k => d.take (k + 1))

/-- move_or_copy of the source.  Returns the error text when the copy or
move raised, the final target chosen by ensure_unique_path, and the
filesystem after the step.  In a dry run nothing is created and the
final target is computed against the unchanged filesystem. -/
def move_or_copy (opts : Options) (env : Env) (fs : List Pth) (path td : Pth) :
    Option String × Pth × List Pth :=
  let fs1 := if opts.dry_run then fs else mkdirParents td fs
  let target := td ++ [pathName path]
  let ft := ensure_unique_path fs1 target
  if opts.dry_run then (none, ft, fs)
  else
    match env.relocFails path with
    | some e => (some e, ft, fs1)
    | none =>
        if opts.copy_mode then (none, ft, fs1 ++ [ft])
        else (none, ft, fs1.erase path ++ [ft])

/-- The action verb of an outcome line. -/
def actionStr (opts : Options) : String :=
  if opts.dry_run then "Would " ++ (if opts.copy_mode then "copy" else "move")
  else if opts.copy_mode then "Copied" else "Moved"

/-- Rendering of a path relative to the source root, as relative_to
displays it in the log. -/
def relStr (src p : Pth) : String := pathStr (p.drop src.length)

/-- The date of a pair, resolved from the master image only (line 315 of
the source): get_image_datetime when the master is image-kind, otherwise
no date. -/
def resolve_pair_date (env : Env) (m : Pth) : Option DateTime × Option String :=
  if is_image_file m then get_image_datetime (env.exifOf m) (env.mtimeOf m)
  else (none, none)

/-- The date of a single (lines 339 to 346 of the source): images go
through get_image_datetime, everything else through the guarded mtime
fallback. -/
def resolve_single_date (env : Env) (p : Pth) : Option DateTime × Option String :=
  if is_image_file p then get_image_datetime (env.exifOf p) (env.mtimeOf p)
  else mtimeFallback (env.mtimeOf p)

/-- The conditional label of an outcome line: the provenance tag in
parentheses when a source tag is present, otherwise empty (the Python
conditional expression building src_label). -/
def sourceLabel : Option String → String
  | some s => " (" ++ s ++ ")"
  | none => ""

/-- The companion-video loop of one pair.  The lines are the log
messages emitted before any failure; a some error means the exception
escaped the loop body, which has no handler in the source. -/
def processVideos (opts : Options) (env : Env) (src : Pth) (dirname : String)
    (td : Pth) (fs : List Pth) : List Pth → List String × List Pth × Option String
  | [] => ([], fs, none)
  | v :: t =>
      let r := move_or_copy opts env fs v td
      match r.1 with
      | some e => ([], r.2.2, some e)
      | none =>
          let line := actionStr opts ++ ": " ++ relStr src v ++ "  ->  " ++ dirname
            ++ "/" ++ pathName r.2.1 ++ " (paired with photo)"
          let rest := processVideos opts env src dirname td r.2.2 t
          (line :: rest.1, rest.2.1, rest.2.2)

/-- The destination folder name of a pair: derived from the resolved
timestamp of the master, or the unknown-date sentinel. -/
def pairDirname (env : Env) (m : Pth) : String :=
  match (resolve_pair_date env m).1 with
  | some d => build_target_dirname d
  | none => UNKNOWN_DIR_NAME

/-- One iteration of the pairs loop of _worker.  No exception handler
surrounds this body in the source, so a raised relocation error is
returned as a some to be propagated. -/
def processPair (opts : Options) (env : Env) (src : Pth) (fs : List Pth)
    (pr : Pth × List Pth) : List String × List Pth × Option String :=
  let m := pr.1
  let vids := pr.2
  let r := resolve_pair_date env m
  if r.1.isNone && !opts.include_unknown then
    (["Skipping (no date found): " ++ relStr src m ++ " (+ " ++ natStr vids.length
        ++ " video)"], fs, none)
  else
    let dirname := pairDirname env m
    let td := src ++ [dirname]
    let mr := move_or_copy opts env fs m td
    match mr.1 with
    | some e => ([], mr.2.2, some e)
    | none =>
        let lab := sourceLabel r.2
        let line1 := actionStr opts ++ ": " ++ relStr src m ++ "  ->  " ++ dirname
          ++ "/" ++ pathName mr.2.1 ++ lab
        let vr := processVideos opts env src dirname td mr.2.2 vids
        (line1 :: vr.1, vr.2.1, vr.2.2)

/-- The pairs loop of _worker: a raised exception stops the loop and
escapes, everything after it unprocessed. -/
def processPairs (opts : Options) (env : Env) (src : Pth) (fs : List Pth) :
    List (Pth × List Pth) → List String × List Pth × Option String
  | [] => ([], fs, none)
  | pr :: rest =>
      let r := processPair opts env src fs pr
      match r.2.2 with
      | some e => (r.1, r.2.1, some e)
      | none =>
          let r2 := processPairs opts env src r.2.1 rest
          (r.1 ++ r2.1, r2.2.1, r2.2.2)

/-- The relocation tail of one singles iteration, shared by the dated
and the unknown-folder branch: create or simulate, then either the
Error line of the exception handler or the outcome line. -/
def singleRelocate (opts : Options) (env : Env) (src : Pth) (fs : List Pth)
    (p : Pth) (rel : String) (source : Option String) (dirname : String) :
    List String × List Pth :=
  let mr := move_or_copy opts env fs p (src ++ [dirname])
  match mr.1 with
  | some e => (["Error with " ++ rel ++ ": " ++ e], mr.2.2)
  | none =>
      let lab := sourceLabel source
      ([actionStr opts ++ ": " ++ rel ++ "  ->  " ++ dirname ++ "/"
          ++ pathName mr.2.1 ++ lab], mr.2.2)

/-- One iteration of the singles loop of _worker, whose whole body after
computing the relative path is wrapped in a try that records an Error
line and continues. -/
def processSingle (opts : Options) (env : Env) (src : Pth) (fs : List Pth)
    (p : Pth) : List String × List Pth :=
  let rel := relStr src p
  let r := resolve_single_date env p
  match r.1 with
  | some d => singleRelocate opts env src fs p rel r.2 (build_target_dirname d)
  | none =>
      if !opts.include_unknown then (["Skipping (no date found): " ++ rel], fs)
      else singleRelocate opts env src fs p rel r.2 UNKNOWN_DIR_NAME

/-- The singles loop of _worker: total, every item contributes exactly
one outcome line. -/
def processSingles (opts : Options) (env : Env) (src : Pth) (fs : List Pth) :
    List Pth → List String × List Pth
  | [] => ([], fs)
  | p :: t =>
      let r := processSingle opts env src fs p
      let r2 := processSingles opts env src r.2 t
      (r.1 ++ r2.1, r2.2)

/-- _worker of the source, stripped of the GUI progress reporting: group
the collected files, run the pairs loop, then the singles loop, then log
Done.  The boolean records whether the run completed (false exactly when
an exception escaped the pairs loop and killed the worker). -/
def runWorker (opts : Options) (env : Env) (src : Pth) (files : List Pth)
    (fs0 : List Pth) : List String × List Pth × Bool :=
  if files.isEmpty then (["Found no media."], fs0, true)
  else
    let pr := pair_live_photos files
    let r := processPairs opts env src fs0 pr.1
    match r.2.2 with
    | some _ => (r.1, r.2.1, false)
    | none =>
        let r2 := processSingles opts env src r.2.1 pr.2
        (r.1 ++ r2.1 ++ ["Done!"], r2.2, true)

/-! ### General helper lemmas -/

theorem findSome?_eq_of_first (f : String → Option DateTime) :
    ∀ (l : List String) (i : Nat) (a : String) (b : DateTime),
      l.get? i = some a →
      (∀ j, j < i → ∀ x, l.get? j = some x → f x = none) →
      f a = some b → l.findSome? f = some b := by
  intro l
  induction l with
  | nil => intro i a b h; simp at h
  | cons c t ih =>
      intro i a b h hpre hfa
      match i with
      | 0 =>
          simp at h
          subst h
          simp [List.findSome?_cons, hfa]
      | i + 1 =>
          have hc : f c = none := hpre 0 (Nat.succ_pos i) c rfl
          simp [List.findSome?_cons, hc]
          exact ih i a b h (fun j hj x hx => hpre (j + 1) (by omega) x hx) hfa

/-! ### Claims -/

/-- C5: for every image-kind metadata mapping that contains at least one
of the candidate tags (scanned in the fixed order DateTimeOriginal,
CreateDate, DateTimeDigitized, DateTime) with a value parsing under one
of the six accepted formats, the resolver returns the timestamp parsed
from the first such successfully parsing tag, with provenance metadata
(rendered exif by the source). -/
theorem C5_first_parsing_candidate_wins
    (m : List (String × String)) (mt : Option DateTime)
    (i : Nat) (k v : String) (dt : DateTime)
    (hk : _EXIF_DATETIME_CANDIDATES.get? i = some k)
    (hpre : ∀ j, j < i → ∀ k2, _EXIF_DATETIME_CANDIDATES.get? j = some k2 →
      (m.lookup k2).bind parse_exif_datetime = none)
    (hv : m.lookup k = some v)
    (hp : parse_exif_datetime v = some dt) :
    get_image_datetime (some m) mt = (some dt, some "exif") ∧
    sourceProvenance (get_image_datetime (some m) mt).2 = Provenance.metadata := by
  have hscan : scanExif m = some dt := by
    apply findSome?_eq_of_first (fun k2 => (m.lookup k2).bind parse_exif_datetime)
      _EXIF_DATETIME_CANDIDATES i k dt hk hpre
    rw [hv]
    exact hp
  constructor
  · simp [get_image_datetime, hscan]
  · simp [get_image_datetime, hscan, sourceProvenance]

/-- Witness for C5: a mapping without DateTimeOriginal whose CreateDate
value parses under the first accepted format. -/
theorem C5_first_parsing_candidate_wins_witness :
    get_image_datetime (some [("CreateDate", "2021:05:06 07:08:09")]) none
      = (some ⟨2021, 5, 6, 7, 8, 9⟩, some "exif") ∧
    sourceProvenance
      (get_image_datetime (some [("CreateDate", "2021:05:06 07:08:09")]) none).2
      = Provenance.metadata := by
  apply C5_first_parsing_candidate_wins
    [("CreateDate", "2021:05:06 07:08:09")] none 1 "CreateDate"
    "2021:05:06 07:08:09" ⟨2021, 5, 6, 7, 8, 9⟩
  · decide
  · intro j hj k2 hk2
    interval_cases j
    simp [_EXIF_DATETIME_CANDIDATES] at hk2
    subst hk2
    decide
  · decide
  · decide

/-- C6: date resolution is total (the embedding returns a value for
every environment, no exception reaching the caller), and whenever the
file is not image-kind, or its metadata is absent, unreadable, or no
candidate tag of it parses, the result is the guarded mtime fallback:
the last-modification timestamp with provenance filesystem (rendered
mtime), or no timestamp with provenance none when even stat fails. -/
theorem C6_fallback_to_mtime (env : Env) (p : Pth)
    (h : is_image_file p = false ∨ (env.exifOf p).bind scanExif = none) :
    resolve_single_date env p = mtimeFallback (env.mtimeOf p) ∧
    sourceProvenance (resolve_single_date env p).2
      = (if (env.mtimeOf p).isSome then Provenance.filesystem else Provenance.unknown) := by
  have h1 : resolve_single_date env p = mtimeFallback (env.mtimeOf p) := by
    rcases h with h | h
    · rw [resolve_single_date, if_neg (by simp [h])]
    · rw [resolve_single_date]
      by_cases hi : is_image_file p
      · rw [if_pos hi]
        cases hev : env.exifOf p with
        | none => rfl
        | some m =>
            rw [hev] at h
            simp at h
            simp [get_image_datetime, h]
      · rw [if_neg hi]
  refine ⟨h1, ?_⟩
  rw [h1]
  cases hmt : env.mtimeOf p with
  | none => simp [mtimeFallback, sourceProvenance]
  | some t => simp [mtimeFallback, sourceProvenance]

/-- Witness for C6: a video file with a readable modification time. -/
theorem C6_fallback_to_mtime_witness :
    resolve_single_date
      ⟨fun _ => none, fun _ => some ⟨2020, 1, 2, 3, 4, 5⟩, fun _ => none⟩
      ["s", "clip.mov"]
      = mtimeFallback (some ⟨2020, 1, 2, 3, 4, 5⟩) ∧
    sourceProvenance
      (resolve_single_date
        ⟨fun _ => none, fun _ => some ⟨2020, 1, 2, 3, 4, 5⟩, fun _ => none⟩
        ["s", "clip.mov"]).2
      = (if (some (⟨2020, 1, 2, 3, 4, 5⟩ : DateTime)).isSome
          then Provenance.filesystem else Provenance.unknown) :=
  C6_fallback_to_mtime
    ⟨fun _ => none, fun _ => some ⟨2020, 1, 2, 3, 4, 5⟩, fun _ => none⟩
    ["s", "clip.mov"] (Or.inl (by decide))

/-- The occupied branch of ensure_unique_path, characterized: the result
is the candidate at the smallest free counter value at least one. -/
theorem ensure_unique_path_mem_spec (fs : List Pth) (target : Pth)
    (h : target ∈ fs) :
    ∃ i, 1 ≤ i ∧ ensure_unique_path fs target = uniqueCand target i ∧
      uniqueCand target i ∉ fs ∧
      ∀ j, 1 ≤ j → j < i → uniqueCand target j ∈ fs := by
  obtain ⟨k0, hk0, hfree0⟩ := exists_free_cand_lt fs target
  obtain ⟨k, hk, hfree, hmin, heq⟩ :=
    findFreeAux_spec fs target (fs.length + 1) 1 ⟨k0, hk0, hfree0⟩
  refine ⟨1 + k, by omega, ?_, hfree, ?_⟩
  · rw [ensure_unique_path, if_pos h, heq]
  · intro j h1 h2
    have := hmin (j - 1) (by omega)
    have hj : 1 + (j - 1) = j := by omega
    rwa [hj] at this

/-- C7: ensure_unique_path returns an unoccupied target unchanged;
an occupied target is renamed with the smallest counter at least one,
appended as an underscore suffix to the stem before the extension, whose
candidate is unoccupied; in every case the returned path does not exist
in the filesystem at the time of the check.  The filesystem is a fixed
finite list of paths, so there is no concurrent writer. -/
theorem C7_ensure_unique_path_correct (fs : List Pth) (target : Pth) :
    (target ∉ fs → ensure_unique_path fs target = target) ∧
    (target ∈ fs → ∃ i, 1 ≤ i ∧ ensure_unique_path fs target = uniqueCand target i ∧
      uniqueCand target i ∉ fs ∧
      ∀ j, 1 ≤ j → j < i → uniqueCand target j ∈ fs) ∧
    ensure_unique_path fs target ∉ fs := by
  refine ⟨fun h => by rw [ensure_unique_path, if_neg h],
    fun h => ensure_unique_path_mem_spec fs target h, ?_⟩
  by_cases h : target ∈ fs
  · obtain ⟨i, _, heq, hfree, _⟩ := ensure_unique_path_mem_spec fs target h
    rw [heq]
    exact hfree
  · rw [ensure_unique_path, if_neg h]
    exact h

/-- Witness for C7: an unoccupied target is returned unchanged, and an
occupied one gets the smallest free suffix. -/
theorem C7_ensure_unique_path_correct_witness :
    ensure_unique_path [["a", "pic.jpg"]] ["b", "pic.jpg"] = ["b", "pic.jpg"] ∧
    (∃ i, 1 ≤ i ∧
      ensure_unique_path [["b", "pic.jpg"]] ["b", "pic.jpg"]
        = uniqueCand ["b", "pic.jpg"] i ∧
      uniqueCand ["b", "pic.jpg"] i ∉ [["b", "pic.jpg"]] ∧
      ∀ j, 1 ≤ j → j < i → uniqueCand ["b", "pic.jpg"] j ∈ [["b", "pic.jpg"]]) :=
  ⟨(C7_ensure_unique_path_correct [["a", "pic.jpg"]] ["b", "pic.jpg"]).1 (by decide),
   (C7_ensure_unique_path_correct [["b", "pic.jpg"]] ["b", "pic.jpg"]).2.1 (by decide)⟩

/-- The guarded loop agrees with the bounded search whenever a free
candidate exists within the fuel. -/
theorem uniqueLoop_eq_findFreeAux (fs : List Pth) (target : Pth) :
    ∀ fuel i, (∃ k, k < fuel ∧ uniqueCand target (i + k) ∉ fs) →
      uniqueLoop fs target fuel i = some (findFreeAux fs target fuel i) := by
  intro fuel
  induction fuel with
  | zero =>
      intro i h
      obtain ⟨k, hk, _⟩ := h
      omega
  | succ f ih =>
      intro i h
      by_cases h0 : uniqueCand target i ∈ fs
      · obtain ⟨k, hk, hfree⟩ := h
        have hkpos : k ≠ 0 := by
          intro h1
          subst h1
          simp at hfree
          exact hfree h0
        rw [uniqueLoop, findFreeAux, if_pos h0, if_pos h0]
        apply ih
        refine ⟨k - 1, by omega, ?_⟩
        have : i + 1 + (k - 1) = i + k := by omega
        rwa [this]
      · rw [uniqueLoop, findFreeAux, if_neg h0, if_neg h0]

/-- C10: for an occupied target over a finite filesystem, the unbounded
while loop of ensure_unique_path terminates: with some finite fuel the
literal loop, started at counter one, returns the very path
ensure_unique_path computes, instead of running out of fuel. -/
theorem C10_unique_loop_terminates (fs : List Pth) (target : Pth)
    (h : target ∈ fs) :
    ∃ fuel, uniqueLoop fs target fuel 1 = some (ensure_unique_path fs target) := by
  refine ⟨fs.length + 1, ?_⟩
  obtain ⟨k0, hk0, hfree0⟩ := exists_free_cand_lt fs target
  rw [uniqueLoop_eq_findFreeAux fs target (fs.length + 1) 1 ⟨k0, hk0, hfree0⟩,
    ensure_unique_path, if_pos h]

/-- Witness for C10: the loop terminates on a concrete occupied
target. -/
theorem C10_unique_loop_terminates_witness :
    ∃ fuel, uniqueLoop [["b", "pic.jpg"], ["a"]] ["b", "pic.jpg"] fuel 1
      = some (ensure_unique_path [["b", "pic.jpg"], ["a"]] ["b", "pic.jpg"]) :=
  C10_unique_loop_terminates [["b", "pic.jpg"], ["a"]] ["b", "pic.jpg"] (by decide)

/-- C1: the Grouper does not partition the input.  On the bucket listing
IMG.png before IMG.jpg next to IMG.mov, the master is the
lexicographically smallest image IMG.jpg, but the demotion loop iterates
over the images with only the first list position removed, so it demotes
the master itself (later filtered out as paired) and never demotes
IMG.png: that input file ends up neither as a master, nor as a
companion, nor as a single — it is silently dropped, against both the
specification and the docstring of _pair_live_photos. -/
theorem C1_grouper_drops_a_file :
    pair_live_photos [["s", "IMG.png"], ["s", "IMG.jpg"], ["s", "IMG.mov"]]
      = ([(["s", "IMG.jpg"], [["s", "IMG.mov"]])], []) ∧
    ["s", "IMG.png"] ∈ [["s", "IMG.png"], ["s", "IMG.jpg"], ["s", "IMG.mov"]] ∧
    ["s", "IMG.png"] ∉ inPairs
      (pair_live_photos [["s", "IMG.png"], ["s", "IMG.jpg"], ["s", "IMG.mov"]]).1 ∧
    ["s", "IMG.png"] ∉
      (pair_live_photos [["s", "IMG.png"], ["s", "IMG.jpg"], ["s", "IMG.mov"]]).2 := by
  decide

/-- C8: the destination folder name is not always a four-digit year, a
hyphen and a two-digit month.  The source formats the year with the
width-two specifier 02d, so the EXIF value 0500:01:02 03:04:05, which
parses to year 500, produces the six-character folder name 500-01
instead of the seven-character 0500-01 the YYYY-MM shape requires. -/
theorem C8_year_not_four_digits :
    parse_exif_datetime "0500:01:02 03:04:05" = some ⟨500, 1, 2, 3, 4, 5⟩ ∧
    build_target_dirname ⟨500, 1, 2, 3, 4, 5⟩ = "500-01" ∧
    ("500-01" : String).length ≠ 7 ∧
    build_target_dirname ⟨2021, 5, 6, 7, 8, 9⟩ = "2021-05" := by
  decide

theorem move_or_copy_env_congr (opts : Options) (env env' : Env)
    (h : env'.relocFails = env.relocFails) :
    ∀ fs p td, move_or_copy opts env' fs p td = move_or_copy opts env fs p td := by
  intro fs p td
  simp [move_or_copy, h]

theorem processVideos_env_congr (opts : Options) (env env' : Env)
    (src : Pth) (dirname : String) (td : Pth)
    (h : env'.relocFails = env.relocFails) :
    ∀ vids fs, processVideos opts env' src dirname td fs vids
      = processVideos opts env src dirname td fs vids := by
  intro vids
  induction vids with
  | nil => intro fs; rfl
  | cons v t ih =>
      intro fs
      simp only [processVideos, move_or_copy_env_congr opts env env' h, ih]

theorem resolve_pair_date_congr (env env' : Env) (m : Pth)
    (h1 : env'.exifOf m = env.exifOf m) (h2 : env'.mtimeOf m = env.mtimeOf m) :
    resolve_pair_date env' m = resolve_pair_date env m := by
  simp [resolve_pair_date, h1, h2]

theorem pairDirname_congr (env env' : Env) (m : Pth)
    (h1 : env'.exifOf m = env.exifOf m) (h2 : env'.mtimeOf m = env.mtimeOf m) :
    pairDirname env' m = pairDirname env m := by
  simp [pairDirname, resolve_pair_date_congr env env' m h1 h2]

/-- C4: the destination of every member of a pair is governed by the
timestamp of the master image, resolved once: the processing of a pair
is unchanged under any change of the metadata and modification times of
every path other than the master (the relocation collaborator held
fixed), so the own metadata or modification time of a companion is
never consulted; and when the timestamp of the master is unresolved
while undated files are excluded, the whole pair is skipped as one unit
with a single joint report and an unchanged filesystem. -/
theorem C4_pair_governed_by_master_date (opts : Options) (env env' : Env)
    (src : Pth) (fs : List Pth) (m : Pth) (vids : List Pth) :
    (env'.exifOf m = env.exifOf m → env'.mtimeOf m = env.mtimeOf m →
      env'.relocFails = env.relocFails →
      processPair opts env' src fs (m, vids) = processPair opts env src fs (m, vids)) ∧
    ((resolve_pair_date env m).1 = none → opts.include_unknown = false →
      processPair opts env src fs (m, vids)
        = (["Skipping (no date found): " ++ relStr src m ++ " (+ "
            ++ natStr vids.length ++ " video)"], fs, none)) := by
  constructor
  · intro h1 h2 h3
    simp only [processPair, resolve_pair_date_congr env env' m h1 h2,
      pairDirname_congr env env' m h1 h2,
      move_or_copy_env_congr opts env env' h3,
      processVideos_env_congr opts env env' src _ _ h3]
  · intro hd hinc
    simp [processPair, hd, hinc]

/-- Witness for C4: changing the metadata of the companion video does
not change the processing of the pair, and a dateless master with
undated files excluded skips the pair jointly. -/
theorem C4_pair_governed_by_master_date_witness :
    processPair ⟨false, false, false⟩
      ⟨fun p => if p = ["s", "IMG.mov"] then
          some [("DateTime", "2021:05:06 07:08:09")] else none,
        fun _ => none, fun _ => none⟩
      ["s"] [["s"], ["s", "IMG.jpg"], ["s", "IMG.mov"]]
      (["s", "IMG.jpg"], [["s", "IMG.mov"]])
      = processPair ⟨false, false, false⟩
        ⟨fun _ => none, fun _ => none, fun _ => none⟩
        ["s"] [["s"], ["s", "IMG.jpg"], ["s", "IMG.mov"]]
        (["s", "IMG.jpg"], [["s", "IMG.mov"]]) ∧
    processPair ⟨false, false, false⟩
      ⟨fun _ => none, fun _ => none, fun _ => none⟩
      ["s"] [["s"], ["s", "IMG.jpg"], ["s", "IMG.mov"]]
      (["s", "IMG.jpg"], [["s", "IMG.mov"]])
      = (["Skipping (no date found): " ++ relStr ["s"] ["s", "IMG.jpg"] ++ " (+ "
          ++ natStr [["s", "IMG.mov"]].length ++ " video)"],
         [["s"], ["s", "IMG.jpg"], ["s", "IMG.mov"]], none) :=
  ⟨(C4_pair_governed_by_master_date ⟨false, false, false⟩
      ⟨fun _ => none, fun _ => none, fun _ => none⟩
      ⟨fun p => if p = ["s", "IMG.mov"] then
          some [("DateTime", "2021:05:06 07:08:09")] else none,
        fun _ => none, fun _ => none⟩
      ["s"] [["s"], ["s", "IMG.jpg"], ["s", "IMG.mov"]]
      ["s", "IMG.jpg"] [["s", "IMG.mov"]]).1 (by decide) rfl rfl,
   (C4_pair_governed_by_master_date ⟨false, false, false⟩
      ⟨fun _ => none, fun _ => none, fun _ => none⟩
      ⟨fun _ => none, fun _ => none, fun _ => none⟩
      ["s"] [["s"], ["s", "IMG.jpg"], ["s", "IMG.mov"]]
      ["s", "IMG.jpg"] [["s", "IMG.mov"]]).2 (by decide) rfl⟩

theorem singleRelocate_one_line (opts : Options) (env : Env) (src : Pth)
    (fs : List Pth) (p : Pth) (rel : String) (source : Option String)
    (dirname : String) :
    (singleRelocate opts env src fs p rel source dirname).1.length = 1 := by
  unfold singleRelocate
  cases h : (move_or_copy opts env fs p (src ++ [dirname])).1 <;> simp [h]

theorem processSingle_one_line (opts : Options) (env : Env) (src : Pth)
    (fs : List Pth) (p : Pth) :
    (processSingle opts env src fs p).1.length = 1 := by
  unfold processSingle
  cases h : (resolve_single_date env p).1 <;>
    simp [h, singleRelocate_one_line]
  split <;> simp [singleRelocate_one_line]

theorem processSingles_length (opts : Options) (env : Env) (src : Pth) :
    ∀ (ss : List Pth) (fs : List Pth),
      (processSingles opts env src fs ss).1.length = ss.length := by
  intro ss
  induction ss with
  | nil => intro fs; rfl
  | cons p t ih =>
      intro fs
      rw [processSingles]
      simp [processSingle_one_line, ih]
      omega

/-- C2 counterexample: relocating the pair master raises, and because
the pairs loop of _worker has no per-item exception handler, the run
aborts with no error outcome line and the remaining single B.jpg is
never processed — although processed alone it would have produced an
outcome line. -/
theorem C2_pair_error_aborts_run :
    runWorker ⟨false, false, true⟩
      ⟨fun p => if p = ["s", "IMG.jpg"] ∨ p = ["s", "B.jpg"] then
          some [("DateTimeOriginal", "2021:05:06 07:08:09")] else none,
        fun _ => none,
        fun p => if p = ["s", "IMG.jpg"] then some "PermissionError(13)" else none⟩
      ["s"] [["s", "IMG.jpg"], ["s", "IMG.mov"], ["s", "B.jpg"]]
      [["s"], ["s", "IMG.jpg"], ["s", "IMG.mov"], ["s", "B.jpg"]]
      = ([], [["s"], ["s", "IMG.jpg"], ["s", "IMG.mov"], ["s", "B.jpg"],
          ["s"], ["s", "2021-05"]], false) ∧
    (processSingle ⟨false, false, true⟩
      ⟨fun p => if p = ["s", "IMG.jpg"] ∨ p = ["s", "B.jpg"] then
          some [("DateTimeOriginal", "2021:05:06 07:08:09")] else none,
        fun _ => none,
        fun p => if p = ["s", "IMG.jpg"] then some "PermissionError(13)" else none⟩
      ["s"] [["s"], ["s", "IMG.jpg"], ["s", "IMG.mov"], ["s", "B.jpg"]]
      ["s", "B.jpg"]).1
      = ["Moved: B.jpg  ->  2021-05/B.jpg (exif)"] := by
  constructor <;> decide

/-- C2 amended: per-item exception handling exists only in the singles
loop — every single contributes exactly one outcome line whatever its
environment does, with no exception escaping — while an exception
raised while processing a pair escapes the pairs loop and aborts every
remaining item of the plan. -/
theorem C2_singles_guarded_pairs_abort (opts : Options) (env : Env) (src : Pth)
    (fs : List Pth) (ss : List Pth) (pr : Pth × List Pth)
    (rest : List (Pth × List Pth)) (e : String) :
    ((processSingles opts env src fs ss).1.length = ss.length) ∧
    ((processPair opts env src fs pr).2.2 = some e →
      processPairs opts env src fs (pr :: rest)
        = ((processPair opts env src fs pr).1,
           (processPair opts env src fs pr).2.1, some e)) := by
  refine ⟨processSingles_length opts env src ss fs, ?_⟩
  intro h
  simp only [processPairs, h]

/-- Witness for C2 amended: the erroring pair of the counterexample
aborts the loop before a second pair, and the singles loop yields one
line per item on the same inputs. -/
theorem C2_singles_guarded_pairs_abort_witness :
    ((processSingles ⟨false, false, true⟩
      ⟨fun p => if p = ["s", "IMG.jpg"] ∨ p = ["s", "B.jpg"] then
          some [("DateTimeOriginal", "2021:05:06 07:08:09")] else none,
        fun _ => none,
        fun p => if p = ["s", "IMG.jpg"] then some "PermissionError(13)" else none⟩
      ["s"] [["s"], ["s", "IMG.jpg"], ["s", "B.jpg"]]
      [["s", "B.jpg"], ["s", "IMG.jpg"]]).1.length = 2) ∧
    (processPairs ⟨false, false, true⟩
      ⟨fun p => if p = ["s", "IMG.jpg"] ∨ p = ["s", "B.jpg"] then
          some [("DateTimeOriginal", "2021:05:06 07:08:09")] else none,
        fun _ => none,
        fun p => if p = ["s", "IMG.jpg"] then some "PermissionError(13)" else none⟩
      ["s"] [["s"], ["s", "IMG.jpg"], ["s", "B.jpg"]]
      ((["s", "IMG.jpg"], []) :: [(["s", "B.jpg"], [])])
      = ((processPair ⟨false, false, true⟩
          ⟨fun p => if p = ["s", "IMG.jpg"] ∨ p = ["s", "B.jpg"] then
              some [("DateTimeOriginal", "2021:05:06 07:08:09")] else none,
            fun _ => none,
            fun p => if p = ["s", "IMG.jpg"] then some "PermissionError(13)" else none⟩
          ["s"] [["s"], ["s", "IMG.jpg"], ["s", "B.jpg"]] (["s", "IMG.jpg"], [])).1,
         (processPair ⟨false, false, true⟩
          ⟨fun p => if p = ["s", "IMG.jpg"] ∨ p = ["s", "B.jpg"] then
              some [("DateTimeOriginal", "2021:05:06 07:08:09")] else none,
            fun _ => none,
            fun p => if p = ["s", "IMG.jpg"] then some "PermissionError(13)" else none⟩
          ["s"] [["s"], ["s", "IMG.jpg"], ["s", "B.jpg"]] (["s", "IMG.jpg"], [])).2.1,
         some "PermissionError(13)")) :=
  ⟨(C2_singles_guarded_pairs_abort ⟨false, false, true⟩
      ⟨fun p => if p = ["s", "IMG.jpg"] ∨ p = ["s", "B.jpg"] then
          some [("DateTimeOriginal", "2021:05:06 07:08:09")] else none,
        fun _ => none,
        fun p => if p = ["s", "IMG.jpg"] then some "PermissionError(13)" else none⟩
      ["s"] [["s"], ["s", "IMG.jpg"], ["s", "B.jpg"]]
      [["s", "B.jpg"], ["s", "IMG.jpg"]] (["s", "IMG.jpg"], [])
      [(["s", "B.jpg"], [])] "PermissionError(13)").1,
   (C2_singles_guarded_pairs_abort ⟨false, false, true⟩
      ⟨fun p => if p = ["s", "IMG.jpg"] ∨ p = ["s", "B.jpg"] then
          some [("DateTimeOriginal", "2021:05:06 07:08:09")] else none,
        fun _ => none,
        fun p => if p = ["s", "IMG.jpg"] then some "PermissionError(13)" else none⟩
      ["s"] [["s"], ["s", "IMG.jpg"], ["s", "B.jpg"]]
      [["s", "B.jpg"], ["s", "IMG.jpg"]] (["s", "IMG.jpg"], [])
      [(["s", "B.jpg"], [])] "PermissionError(13)").2 (by decide)⟩

/-- C3 counterexample: two files of the same name in different
directories, both dated 2021-05.  The non-simulating run relocates the
first and therefore gives the second the suffix _1; the simulating run
checks both against the unchanged filesystem and reports the unsuffixed
name twice, so its second line with the verb replaced is not the second
line of the non-simulating run: the destination names differ.  The
simulated filesystem is unchanged. -/
theorem C3_suffixes_diverge_between_modes :
    (runWorker ⟨true, false, true⟩
      ⟨fun p => if p = ["s", "a", "IMG.jpg"] ∨ p = ["s", "b", "IMG.jpg"] then
          some [("DateTimeOriginal", "2021:05:06 07:08:09")] else none,
        fun _ => none, fun _ => none⟩
      ["s"] [["s", "a", "IMG.jpg"], ["s", "b", "IMG.jpg"]]
      [["s"], ["s", "a"], ["s", "b"], ["s", "a", "IMG.jpg"], ["s", "b", "IMG.jpg"]]).1
      = ["Would move: a/IMG.jpg  ->  2021-05/IMG.jpg (exif)",
         "Would move: b/IMG.jpg  ->  2021-05/IMG.jpg (exif)", "Done!"] ∧
    (runWorker ⟨false, false, true⟩
      ⟨fun p => if p = ["s", "a", "IMG.jpg"] ∨ p = ["s", "b", "IMG.jpg"] then
          some [("DateTimeOriginal", "2021:05:06 07:08:09")] else none,
        fun _ => none, fun _ => none⟩
      ["s"] [["s", "a", "IMG.jpg"], ["s", "b", "IMG.jpg"]]
      [["s"], ["s", "a"], ["s", "b"], ["s", "a", "IMG.jpg"], ["s", "b", "IMG.jpg"]]).1
      = ["Moved: a/IMG.jpg  ->  2021-05/IMG.jpg (exif)",
         "Moved: b/IMG.jpg  ->  2021-05/IMG_1.jpg (exif)", "Done!"] ∧
    ("Would move: b/IMG.jpg  ->  2021-05/IMG.jpg (exif)"
      = "Would move" ++ ": b/IMG.jpg  ->  2021-05/IMG.jpg (exif)") ∧
    ("Moved: b/IMG.jpg  ->  2021-05/IMG_1.jpg (exif)"
      ≠ "Moved" ++ ": b/IMG.jpg  ->  2021-05/IMG.jpg (exif)") ∧
    (runWorker ⟨true, false, true⟩
      ⟨fun p => if p = ["s", "a", "IMG.jpg"] ∨ p = ["s", "b", "IMG.jpg"] then
          some [("DateTimeOriginal", "2021:05:06 07:08:09")] else none,
        fun _ => none, fun _ => none⟩
      ["s"] [["s", "a", "IMG.jpg"], ["s", "b", "IMG.jpg"]]
      [["s"], ["s", "a"], ["s", "b"], ["s", "a", "IMG.jpg"], ["s", "b", "IMG.jpg"]]).2.1
      = [["s"], ["s", "a"], ["s", "b"], ["s", "a", "IMG.jpg"], ["s", "b", "IMG.jpg"]] := by
  refine ⟨by decide, by decide, by decide, by decide, by decide⟩

theorem parentOf_concat (td : Pth) (nm : String) : parentOf (td ++ [nm]) = td := by
  simp [parentOf]

theorem uniqueCand_concat (td : Pth) (nm : String) (i : Nat) :
    uniqueCand (td ++ [nm]) i
      = td ++ [stemOf (td ++ [nm]) ++ "_" ++ natStr i ++ suffixOf (td ++ [nm])] := by
  rw [uniqueCand, parentOf_concat]

theorem mem_mkdirParents_concat (td : Pth) (fs : List Pth) (x : String) :
    (td ++ [x]) ∈ mkdirParents td fs ↔ (td ++ [x]) ∈ fs := by
  unfold mkdirParents
  rw [List.mem_append]
  constructor
  · rintro (h | h)
    · exact h
    · exfalso
      rw [List.mem_map] at h
      obtain ⟨k, hk, heq⟩ := h
      rw [List.mem_range] at hk
      have hlen := congrArg List.length heq
      simp [List.length_take] at hlen
      omega
  · exact Or.inl

theorem ensure_unique_path_congr (fs fs' target : _)
    (ht : (target ∈ fs) ↔ (target ∈ fs'))
    (hc : ∀ i, 1 ≤ i → ((uniqueCand target i ∈ fs) ↔ (uniqueCand target i ∈ fs'))) :
    ensure_unique_path fs target = ensure_unique_path fs' target := by
  by_cases hm : target ∈ fs
  · have hm' := ht.mp hm
    obtain ⟨i, hi1, heq, hfree, hmin⟩ := ensure_unique_path_mem_spec fs target hm
    obtain ⟨j, hj1, heq', hfree', hmin'⟩ := ensure_unique_path_mem_spec fs' target hm'
    have hij : i = j := by
      by_contra hij
      rcases Nat.lt_or_ge i j with h | h
      · exact hfree ((hc i hi1).mpr (hmin' i hi1 h))
      · exact hfree' ((hc j hj1).mp (hmin j hj1 (by omega)))
    rw [heq, heq', hij]
  · have hm' : target ∉ fs' := fun h => hm (ht.mpr h)
    rw [ensure_unique_path, if_neg hm, ensure_unique_path, if_neg hm']

/-- Creating the destination directory and its ancestors does not change
any existence check performed on candidate file names inside it, because
those paths are strictly longer. -/
theorem ensure_unique_path_mkdirParents (fs : List Pth) (td : Pth) (nm : String) :
    ensure_unique_path (mkdirParents td fs) (td ++ [nm])
      = ensure_unique_path fs (td ++ [nm]) := by
  apply ensure_unique_path_congr
  · exact mem_mkdirParents_concat td fs nm
  · intro i _
    rw [uniqueCand_concat]
    exact mem_mkdirParents_concat td fs _

/-- A non-raising relocation chooses in a real run exactly the final
name a simulated run chooses at the same filesystem state, and the
simulated run changes nothing. -/
theorem move_or_copy_dry_real (c u : Bool) (env : Env) (fs : List Pth)
    (p td : Pth) (h : env.relocFails p = none) :
    (move_or_copy ⟨true, c, u⟩ env fs p td).1 = none ∧
    (move_or_copy ⟨false, c, u⟩ env fs p td).1 = none ∧
    (move_or_copy ⟨false, c, u⟩ env fs p td).2.1
      = (move_or_copy ⟨true, c, u⟩ env fs p td).2.1 ∧
    (move_or_copy ⟨true, c, u⟩ env fs p td).2.2 = fs := by
  unfold move_or_copy
  simp only [h]
  cases c <;> simp [ensure_unique_path_mkdirParents]

theorem move_or_copy_dry (c u : Bool) (env : Env) (fs : List Pth) (p td : Pth) :
    move_or_copy ⟨true, c, u⟩ env fs p td
      = (none, ensure_unique_path fs (td ++ [pathName p]), fs) := by
  simp [move_or_copy]

theorem processVideos_dry (c u : Bool) (env : Env) (src : Pth)
    (dirname : String) (td : Pth) :
    ∀ (vids : List Pth) (fs : List Pth),
      (processVideos ⟨true, c, u⟩ env src dirname td fs vids).2.1 = fs ∧
      (processVideos ⟨true, c, u⟩ env src dirname td fs vids).2.2 = none := by
  intro vids
  induction vids with
  | nil => intro fs; exact ⟨rfl, rfl⟩
  | cons v t ih =>
      intro fs
      simp [processVideos, move_or_copy_dry, ih fs]

theorem processPair_dry (c u : Bool) (env : Env) (src : Pth) (fs : List Pth)
    (pr : Pth × List Pth) :
    (processPair ⟨true, c, u⟩ env src fs pr).2.1 = fs ∧
    (processPair ⟨true, c, u⟩ env src fs pr).2.2 = none := by
  simp only [processPair]
  constructor <;> split <;> simp [move_or_copy_dry, processVideos_dry]

theorem processPairs_dry (c u : Bool) (env : Env) (src : Pth) :
    ∀ (ps : List (Pth × List Pth)) (fs : List Pth),
      (processPairs ⟨true, c, u⟩ env src fs ps).2.1 = fs ∧
      (processPairs ⟨true, c, u⟩ env src fs ps).2.2 = none := by
  intro ps
  induction ps with
  | nil => intro fs; exact ⟨rfl, rfl⟩
  | cons pr rest ih =>
      intro fs
      have hp := processPair_dry c u env src fs pr
      simp [processPairs, hp.1, hp.2, ih]

theorem processSingle_dry (c u : Bool) (env : Env) (src : Pth) (fs : List Pth)
    (p : Pth) :
    (processSingle ⟨true, c, u⟩ env src fs p).2 = fs := by
  simp only [processSingle]
  cases hr : (resolve_single_date env p).1 with
  | some d => simp [singleRelocate, move_or_copy_dry]
  | none =>
      cases u with
      | false => simp
      | true => simp [singleRelocate, move_or_copy_dry]

theorem processSingles_dry (c u : Bool) (env : Env) (src : Pth) :
    ∀ (ss : List Pth) (fs : List Pth),
      (processSingles ⟨true, c, u⟩ env src fs ss).2 = fs := by
  intro ss
  induction ss with
  | nil => intro fs; rfl
  | cons p t ih =>
      intro fs
      simp [processSingles, processSingle_dry, ih]

theorem runWorker_dry (c u : Bool) (env : Env) (src : Pth)
    (files fs0 : List Pth) :
    (runWorker ⟨true, c, u⟩ env src files fs0).2.1 = fs0 := by
  unfold runWorker
  split
  · rfl
  · have hp := processPairs_dry c u env src (pair_live_photos files).1 fs0
    simp [hp.1, hp.2, processSingles_dry]

/-- In a simulated run and a real run started from the same filesystem
state, a non-raising single-item relocation emits the same line up to
the action verb: in particular the destination file name, numeric
suffix included, is identical. -/
theorem singleRelocate_dry_real (c u : Bool) (env : Env) (src : Pth)
    (fs : List Pth) (p : Pth) (rel : String) (source : Option String)
    (dirname : String) (h : env.relocFails p = none) :
    ∃ t, (singleRelocate ⟨true, c, u⟩ env src fs p rel source dirname).1
        = [actionStr ⟨true, c, u⟩ ++ t] ∧
      (singleRelocate ⟨false, c, u⟩ env src fs p rel source dirname).1
        = [actionStr ⟨false, c, u⟩ ++ t] := by
  obtain ⟨h1, h2, h3, _⟩ := move_or_copy_dry_real c u env fs p (src ++ [dirname]) h
  refine ⟨": " ++ rel ++ "  ->  " ++ dirname ++ "/"
      ++ pathName (move_or_copy ⟨true, c, u⟩ env fs p (src ++ [dirname])).2.1
      ++ sourceLabel source, ?_, ?_⟩
  · simp only [singleRelocate, h1]
    simp [String.append_assoc]
  · simp only [singleRelocate, h2, h3]
    simp [String.append_assoc]

theorem processSingle_dry_real (c u : Bool) (env : Env) (src : Pth)
    (fs : List Pth) (p : Pth) (h : env.relocFails p = none) :
    (processSingle ⟨true, c, u⟩ env src fs p).1
      = (processSingle ⟨false, c, u⟩ env src fs p).1 ∨
    ∃ t, (processSingle ⟨true, c, u⟩ env src fs p).1
        = [actionStr ⟨true, c, u⟩ ++ t] ∧
      (processSingle ⟨false, c, u⟩ env src fs p).1
        = [actionStr ⟨false, c, u⟩ ++ t] := by
  simp only [processSingle]
  cases hr : (resolve_single_date env p).1 with
  | some d =>
      right
      exact singleRelocate_dry_real c u env src fs p (relStr src p)
        (resolve_single_date env p).2 (build_target_dirname d) h
  | none =>
      cases u with
      | false => left; rfl
      | true =>
          right
          exact singleRelocate_dry_real c true env src fs p (relStr src p)
            (resolve_single_date env p).2 UNKNOWN_DIR_NAME h

theorem ensure_unique_path_not_mem (fs : List Pth) (target : Pth)
    (h : target ∉ fs) : ensure_unique_path fs target = target := by
  rw [ensure_unique_path, if_neg h]

theorem pathName_concat (td : Pth) (x : String) : pathName (td ++ [x]) = x := by
  simp [pathName]

theorem concat_last_inj (td : Pth) (a b : String) (h : td ++ [a] = td ++ [b]) :
    a = b :=
  List.head_eq_of_cons_eq (List.append_cancel_left h)

theorem pathName_concat2 (l : Pth) (a b : String) : pathName (l ++ [a, b]) = b := by
  have h : l ++ [a, b] = (l ++ [a]) ++ [b] := by simp
  rw [h, pathName_concat]

/-- A real-mode relocation of a file whose base destination is free:
no error, the final target is the unsuffixed base destination, and the
resulting filesystem is contained in the directory-extended old one
plus that single new destination. -/
theorem move_or_copy_real_free (c u : Bool) (env : Env) (fs : List Pth)
    (p td : Pth) (h1 : env.relocFails p = none)
    (h2 : (td ++ [pathName p]) ∉ fs) :
    (move_or_copy ⟨false, c, u⟩ env fs p td).1 = none ∧
    (move_or_copy ⟨false, c, u⟩ env fs p td).2.1 = td ++ [pathName p] ∧
    ∀ q ∈ (move_or_copy ⟨false, c, u⟩ env fs p td).2.2,
      q ∈ mkdirParents td fs ∨ q = td ++ [pathName p] := by
  have hfree : (td ++ [pathName p]) ∉ mkdirParents td fs := by
    intro hmem
    exact h2 ((mem_mkdirParents_concat td fs (pathName p)).mp hmem)
  have hens : ensure_unique_path (mkdirParents td fs) (td ++ [pathName p])
      = td ++ [pathName p] := ensure_unique_path_not_mem _ _ hfree
  have hmc : move_or_copy ⟨false, c, u⟩ env fs p td
      = (none, td ++ [pathName p],
        if c then mkdirParents td fs ++ [td ++ [pathName p]]
        else (mkdirParents td fs).erase p ++ [td ++ [pathName p]]) := by
    cases c <;> simp [move_or_copy, h1, hens]
  rw [hmc]
  refine ⟨rfl, rfl, ?_⟩
  intro q hq
  cases c with
  | true =>
      have hq2 : q ∈ mkdirParents td fs ++ [td ++ [pathName p]] := hq
      rcases List.mem_append.mp hq2 with h | h
      · exact Or.inl h
      · simp at h
        exact Or.inr h
  | false =>
      have hq2 : q ∈ (mkdirParents td fs).erase p ++ [td ++ [pathName p]] := hq
      rcases List.mem_append.mp hq2 with h | h
      · exact Or.inl (List.mem_of_mem_erase h)
      · simp at h
        exact Or.inr h

/-- The companion loop of a pair, run simulated against one filesystem
and real against another: when no relocation raises, every base
destination is free in both filesystems and the companion names are
pairwise distinct, the two runs emit the same line tails behind their
respective action verbs — destination names, suffixes included, are
identical. -/
theorem processVideos_dry_real (c u : Bool) (env : Env) (src : Pth)
    (dirname : String) (td : Pth) :
    ∀ (vids : List Pth) (fsD fsR : List Pth),
      (∀ v ∈ vids, env.relocFails v = none) →
      (∀ v ∈ vids, (td ++ [pathName v]) ∉ fsD) →
      (∀ v ∈ vids, (td ++ [pathName v]) ∉ fsR) →
      vids.Pairwise (fun a b => pathName a ≠ pathName b) →
      ∃ ts : List String,
        (processVideos ⟨true, c, u⟩ env src dirname td fsD vids).1
          = ts.map (fun t => actionStr ⟨true, c, u⟩ ++ t) ∧
        (processVideos ⟨false, c, u⟩ env src dirname td fsR vids).1
          = ts.map (fun t => actionStr ⟨false, c, u⟩ ++ t) := by
  intro vids
  induction vids with
  | nil => intro fsD fsR _ _ _ _; exact ⟨[], rfl, rfl⟩
  | cons v t ih =>
      intro fsD fsR hrf hfD hfR hpw
      have hrfv := hrf v (List.mem_cons_self v t)
      have hfDv := hfD v (List.mem_cons_self v t)
      have hfRv := hfR v (List.mem_cons_self v t)
      rw [List.pairwise_cons] at hpw
      obtain ⟨hR1, hR2, hRmem⟩ := move_or_copy_real_free c u env fsR v td hrfv hfRv
      have hD : move_or_copy ⟨true, c, u⟩ env fsD v td
          = (none, td ++ [pathName v], fsD) := by
        rw [move_or_copy_dry, ensure_unique_path_not_mem _ _ hfDv]
      obtain ⟨ts, ht1, ht2⟩ := ih fsD (move_or_copy ⟨false, c, u⟩ env fsR v td).2.2
        (fun w hw => hrf w (List.mem_cons_of_mem v hw))
        (fun w hw => hfD w (List.mem_cons_of_mem v hw))
        (fun w hw hmem => by
          rcases hRmem _ hmem with hin | heq
          · exact hfR w (List.mem_cons_of_mem v hw)
              ((mem_mkdirParents_concat td fsR (pathName w)).mp hin)
          · exact hpw.1 w hw (concat_last_inj td _ _ heq).symm)
        hpw.2
      refine ⟨(": " ++ relStr src v ++ "  ->  " ++ dirname ++ "/" ++ pathName v
          ++ " (paired with photo)") :: ts, ?_, ?_⟩
      · simp only [processVideos, hD]
        simp [ht1, pathName_concat, pathName_concat2, String.append_assoc]
      · simp only [processVideos, hR1, hR2]
        simp [ht2, pathName_concat, pathName_concat2, String.append_assoc]

/-- One pair, processed simulated and real from the same filesystem
state: when no member relocation raises, every base destination of the
pair is initially unoccupied and the member file names are pairwise
distinct, the two runs emit the same lines up to the action verb, with
identical destination folders and names. -/
theorem processPair_dry_real (c u : Bool) (env : Env) (src : Pth)
    (fs : List Pth) (m : Pth) (vids : List Pth)
    (h1 : env.relocFails m = none)
    (h2 : ∀ v ∈ vids, env.relocFails v = none)
    (hfree : ∀ q ∈ (m :: vids), ((src ++ [pairDirname env m]) ++ [pathName q]) ∉ fs)
    (hdist : (m :: vids).Pairwise (fun a b => pathName a ≠ pathName b)) :
    (processPair ⟨true, c, u⟩ env src fs (m, vids)).1
      = (processPair ⟨false, c, u⟩ env src fs (m, vids)).1 ∨
    ∃ ts : List String,
      (processPair ⟨true, c, u⟩ env src fs (m, vids)).1
        = ts.map (fun t => actionStr ⟨true, c, u⟩ ++ t) ∧
      (processPair ⟨false, c, u⟩ env src fs (m, vids)).1
        = ts.map (fun t => actionStr ⟨false, c, u⟩ ++ t) := by
  rw [List.pairwise_cons] at hdist
  simp only [processPair]
  by_cases hskip : (((resolve_pair_date env m).1.isNone && !u) = true)
  · left
    rw [if_pos hskip, if_pos hskip]
  · rw [if_neg hskip, if_neg hskip]
    right
    have hfm := hfree m (List.mem_cons_self m vids)
    have hD : move_or_copy ⟨true, c, u⟩ env fs m (src ++ [pairDirname env m])
        = (none, (src ++ [pairDirname env m]) ++ [pathName m], fs) := by
      rw [move_or_copy_dry, ensure_unique_path_not_mem _ _ hfm]
    obtain ⟨hR1, hR2, hRmem⟩ :=
      move_or_copy_real_free c u env fs m (src ++ [pairDirname env m]) h1 hfm
    obtain ⟨ts, ht1, ht2⟩ := processVideos_dry_real c u env src (pairDirname env m)
      (src ++ [pairDirname env m]) vids fs
      (move_or_copy ⟨false, c, u⟩ env fs m (src ++ [pairDirname env m])).2.2
      h2
      (fun w hw => hfree w (List.mem_cons_of_mem m hw))
      (fun w hw hmem => by
        rcases hRmem _ hmem with hin | heq
        · exact hfree w (List.mem_cons_of_mem m hw)
            ((mem_mkdirParents_concat _ fs (pathName w)).mp hin)
        · exact hdist.1 w hw (concat_last_inj _ _ _ heq).symm)
      hdist.2
    refine ⟨(": " ++ relStr src m ++ "  ->  " ++ pairDirname env m ++ "/"
        ++ pathName m ++ sourceLabel (resolve_pair_date env m).2) :: ts, ?_, ?_⟩
    · simp only [hD]
      simp [ht1, pathName_concat, pathName_concat2, String.append_assoc]
    · simp only [hR1, hR2]
      simp [ht2, pathName_concat, pathName_concat2, String.append_assoc]

/-- C3 amended: a simulate-only run performs no filesystem mutation;
and item by item, at equal filesystem states, the simulated outcome
lines are the real outcome lines with only the action verb changed —
the destination folder and file name, numeric suffix included, are
identical: for a single whenever its relocation does not raise, and
for a pair whenever no member relocation raises, the base destinations
of its members are initially unoccupied and the member names are
pairwise distinct.  Whole runs (and pairs violating those side
conditions) can still diverge in numeric suffixes, because only the
real run updates the filesystem between relocations (see the
counterexample). -/
theorem C3_simulation_no_mutation_per_item_lines (c u : Bool) (env : Env)
    (src : Pth) (files fs0 fs : List Pth) (p : Pth) (m : Pth) (vids : List Pth) :
    ((runWorker ⟨true, c, u⟩ env src files fs0).2.1 = fs0) ∧
    (env.relocFails p = none →
      ((processSingle ⟨true, c, u⟩ env src fs p).1
          = (processSingle ⟨false, c, u⟩ env src fs p).1 ∨
        ∃ t, (processSingle ⟨true, c, u⟩ env src fs p).1
            = [actionStr ⟨true, c, u⟩ ++ t] ∧
          (processSingle ⟨false, c, u⟩ env src fs p).1
            = [actionStr ⟨false, c, u⟩ ++ t])) ∧
    (env.relocFails m = none →
      (∀ v ∈ vids, env.relocFails v = none) →
      (∀ q ∈ (m :: vids), ((src ++ [pairDirname env m]) ++ [pathName q]) ∉ fs) →
      ((m :: vids).Pairwise (fun a b => pathName a ≠ pathName b)) →
      ((processPair ⟨true, c, u⟩ env src fs (m, vids)).1
          = (processPair ⟨false, c, u⟩ env src fs (m, vids)).1 ∨
        ∃ ts : List String,
          (processPair ⟨true, c, u⟩ env src fs (m, vids)).1
            = ts.map (fun t => actionStr ⟨true, c, u⟩ ++ t) ∧
          (processPair ⟨false, c, u⟩ env src fs (m, vids)).1
            = ts.map (fun t => actionStr ⟨false, c, u⟩ ++ t))) :=
  ⟨runWorker_dry c u env src files fs0,
   fun h => processSingle_dry_real c u env src fs p h,
   fun h1 h2 hfree hdist => processPair_dry_real c u env src fs m vids h1 h2 hfree hdist⟩

/-- Witness for C3 amended: the simulated run of the counterexample
inputs leaves the filesystem untouched, the lines of a single item
correspond verb-for-verb, and so do the lines of a whole pair with a
companion video. -/
theorem C3_simulation_no_mutation_per_item_lines_witness :
    ((runWorker ⟨true, false, true⟩
      ⟨fun q => if q = ["s", "a", "IMG.jpg"] ∨ q = ["s", "IMG.jpg"] then
          some [("DateTimeOriginal", "2021:05:06 07:08:09")] else none,
        fun _ => none, fun _ => none⟩
      ["s"] [["s", "a", "IMG.jpg"]]
      [["s"], ["s", "a"], ["s", "a", "IMG.jpg"], ["s", "IMG.jpg"], ["s", "IMG.mov"]]).2.1
      = [["s"], ["s", "a"], ["s", "a", "IMG.jpg"], ["s", "IMG.jpg"], ["s", "IMG.mov"]]) ∧
    ((processSingle ⟨true, false, true⟩
        ⟨fun q => if q = ["s", "a", "IMG.jpg"] ∨ q = ["s", "IMG.jpg"] then
            some [("DateTimeOriginal", "2021:05:06 07:08:09")] else none,
          fun _ => none, fun _ => none⟩
        ["s"] [["s"], ["s", "a"], ["s", "a", "IMG.jpg"], ["s", "IMG.jpg"], ["s", "IMG.mov"]]
        ["s", "a", "IMG.jpg"]).1
        = (processSingle ⟨false, false, true⟩
          ⟨fun q => if q = ["s", "a", "IMG.jpg"] ∨ q = ["s", "IMG.jpg"] then
              some [("DateTimeOriginal", "2021:05:06 07:08:09")] else none,
            fun _ => none, fun _ => none⟩
          ["s"] [["s"], ["s", "a"], ["s", "a", "IMG.jpg"], ["s", "IMG.jpg"], ["s", "IMG.mov"]]
          ["s", "a", "IMG.jpg"]).1 ∨
      ∃ t, (processSingle ⟨true, false, true⟩
          ⟨fun q => if q = ["s", "a", "IMG.jpg"] ∨ q = ["s", "IMG.jpg"] then
              some [("DateTimeOriginal", "2021:05:06 07:08:09")] else none,
            fun _ => none, fun _ => none⟩
          ["s"] [["s"], ["s", "a"], ["s", "a", "IMG.jpg"], ["s", "IMG.jpg"], ["s", "IMG.mov"]]
          ["s", "a", "IMG.jpg"]).1
          = [actionStr ⟨true, false, true⟩ ++ t] ∧
        (processSingle ⟨false, false, true⟩
          ⟨fun q => if q = ["s", "a", "IMG.jpg"] ∨ q = ["s", "IMG.jpg"] then
              some [("DateTimeOriginal", "2021:05:06 07:08:09")] else none,
            fun _ => none, fun _ => none⟩
          ["s"] [["s"], ["s", "a"], ["s", "a", "IMG.jpg"], ["s", "IMG.jpg"], ["s", "IMG.mov"]]
          ["s", "a", "IMG.jpg"]).1
          = [actionStr ⟨false, false, true⟩ ++ t]) ∧
    ((processPair ⟨true, false, true⟩
        ⟨fun q => if q = ["s", "a", "IMG.jpg"] ∨ q = ["s", "IMG.jpg"] then
            some [("DateTimeOriginal", "2021:05:06 07:08:09")] else none,
          fun _ => none, fun _ => none⟩
        ["s"] [["s"], ["s", "a"], ["s", "a", "IMG.jpg"], ["s", "IMG.jpg"], ["s", "IMG.mov"]]
        (["s", "IMG.jpg"], [["s", "IMG.mov"]])).1
        = (processPair ⟨false, false, true⟩
          ⟨fun q => if q = ["s", "a", "IMG.jpg"] ∨ q = ["s", "IMG.jpg"] then
              some [("DateTimeOriginal", "2021:05:06 07:08:09")] else none,
            fun _ => none, fun _ => none⟩
          ["s"] [["s"], ["s", "a"], ["s", "a", "IMG.jpg"], ["s", "IMG.jpg"], ["s", "IMG.mov"]]
          (["s", "IMG.jpg"], [["s", "IMG.mov"]])).1 ∨
      ∃ ts : List String,
        (processPair ⟨true, false, true⟩
          ⟨fun q => if q = ["s", "a", "IMG.jpg"] ∨ q = ["s", "IMG.jpg"] then
              some [("DateTimeOriginal", "2021:05:06 07:08:09")] else none,
            fun _ => none, fun _ => none⟩
          ["s"] [["s"], ["s", "a"], ["s", "a", "IMG.jpg"], ["s", "IMG.jpg"], ["s", "IMG.mov"]]
          (["s", "IMG.jpg"], [["s", "IMG.mov"]])).1
          = ts.map (fun t => actionStr ⟨true, false, true⟩ ++ t) ∧
        (processPair ⟨false, false, true⟩
          ⟨fun q => if q = ["s", "a", "IMG.jpg"] ∨ q = ["s", "IMG.jpg"] then
              some [("DateTimeOriginal", "2021:05:06 07:08:09")] else none,
            fun _ => none, fun _ => none⟩
          ["s"] [["s"], ["s", "a"], ["s", "a", "IMG.jpg"], ["s", "IMG.jpg"], ["s", "IMG.mov"]]
          (["s", "IMG.jpg"], [["s", "IMG.mov"]])).1
          = ts.map (fun t => actionStr ⟨false, false, true⟩ ++ t)) :=
  ⟨(C3_simulation_no_mutation_per_item_lines false true
      ⟨fun q => if q = ["s", "a", "IMG.jpg"] ∨ q = ["s", "IMG.jpg"] then
          some [("DateTimeOriginal", "2021:05:06 07:08:09")] else none,
        fun _ => none, fun _ => none⟩
      ["s"] [["s", "a", "IMG.jpg"]]
      [["s"], ["s", "a"], ["s", "a", "IMG.jpg"], ["s", "IMG.jpg"], ["s", "IMG.mov"]]
      [["s"], ["s", "a"], ["s", "a", "IMG.jpg"], ["s", "IMG.jpg"], ["s", "IMG.mov"]]
      ["s", "a", "IMG.jpg"] ["s", "IMG.jpg"] [["s", "IMG.mov"]]).1,
   (C3_simulation_no_mutation_per_item_lines false true
      ⟨fun q => if q = ["s", "a", "IMG.jpg"] ∨ q = ["s", "IMG.jpg"] then
          some [("DateTimeOriginal", "2021:05:06 07:08:09")] else none,
        fun _ => none, fun _ => none⟩
      ["s"] [["s", "a", "IMG.jpg"]]
      [["s"], ["s", "a"], ["s", "a", "IMG.jpg"], ["s", "IMG.jpg"], ["s", "IMG.mov"]]
      [["s"], ["s", "a"], ["s", "a", "IMG.jpg"], ["s", "IMG.jpg"], ["s", "IMG.mov"]]
      ["s", "a", "IMG.jpg"] ["s", "IMG.jpg"] [["s", "IMG.mov"]]).2.1 rfl,
   (C3_simulation_no_mutation_per_item_lines false true
      ⟨fun q => if q = ["s", "a", "IMG.jpg"] ∨ q = ["s", "IMG.jpg"] then
          some [("DateTimeOriginal", "2021:05:06 07:08:09")] else none,
        fun _ => none, fun _ => none⟩
      ["s"] [["s", "a", "IMG.jpg"]]
      [["s"], ["s", "a"], ["s", "a", "IMG.jpg"], ["s", "IMG.jpg"], ["s", "IMG.mov"]]
      [["s"], ["s", "a"], ["s", "a", "IMG.jpg"], ["s", "IMG.jpg"], ["s", "IMG.mov"]]
      ["s", "a", "IMG.jpg"] ["s", "IMG.jpg"] [["s", "IMG.mov"]]).2.2 rfl
      (fun v _ => rfl)
      (by
        intro q hq
        simp at hq
        rcases hq with h | h <;> subst h <;> decide)
      (by decide)⟩

theorem mtimeFallback_source (mt : Option DateTime) :
    (mtimeFallback mt).2 = some "mtime" ∨ (mtimeFallback mt).2 = none := by
  cases mt <;> simp [mtimeFallback]

theorem get_image_datetime_source (em : Option (List (String × String)))
    (mt : Option DateTime) :
    (get_image_datetime em mt).2 = some "exif" ∨
    (get_image_datetime em mt).2 = some "mtime" ∨
    (get_image_datetime em mt).2 = none := by
  cases em with
  | none => rcases mtimeFallback_source mt with h | h <;> simp [get_image_datetime, h]
  | some m =>
      cases hs : scanExif m with
      | some dt => simp [get_image_datetime, hs]
      | none =>
          rcases mtimeFallback_source mt with h | h <;>
            simp [get_image_datetime, hs, h]

theorem resolve_pair_date_source (env : Env) (m : Pth) :
    (resolve_pair_date env m).2 = some "exif" ∨
    (resolve_pair_date env m).2 = some "mtime" ∨
    (resolve_pair_date env m).2 = none := by
  unfold resolve_pair_date
  split
  · exact get_image_datetime_source _ _
  · simp

theorem resolve_single_date_source (env : Env) (p : Pth) :
    (resolve_single_date env p).2 = some "exif" ∨
    (resolve_single_date env p).2 = some "mtime" ∨
    (resolve_single_date env p).2 = none := by
  unfold resolve_single_date
  split
  · exact get_image_datetime_source _ _
  · rcases mtimeFallback_source (env.mtimeOf p) with h | h <;> simp [h]

/-- The shape every relocation or simulation outcome line actually has
in the source: the action verb, the relative source, a two-space arrow,
the folder and final name, and one of the labels space-parenthesis-exif,
space-parenthesis-mtime, the empty label (files relocated to the
unknown-date folder), or the fixed companion label paired with photo. -/
def relocLineShape (opts : Options) (l : String) : Prop :=
  ∃ r d nm lab,
    lab ∈ ([" (exif)", " (mtime)", "", " (paired with photo)"] : List String) ∧
    l = actionStr opts ++ ": " ++ r ++ "  ->  " ++ d ++ "/" ++ nm ++ lab

theorem processVideos_lines_shape (opts : Options) (env : Env) (src : Pth)
    (dirname : String) (td : Pth) :
    ∀ (vids : List Pth) (fs : List Pth) (l : String),
      l ∈ (processVideos opts env src dirname td fs vids).1 →
      relocLineShape opts l := by
  intro vids
  induction vids with
  | nil => intro fs l hl; simp [processVideos] at hl
  | cons v t ih =>
      intro fs l hl
      simp only [processVideos] at hl
      split at hl
      · simp at hl
      · rcases List.mem_cons.mp hl with h | h
        · exact ⟨relStr src v, dirname, _, " (paired with photo)", by simp, h⟩
        · exact ih _ l h

theorem option_label_cases (source : Option String)
    (hs : source = some "exif" ∨ source = some "mtime" ∨ source = none) :
    sourceLabel source
      ∈ ([" (exif)", " (mtime)", "", " (paired with photo)"] : List String) := by
  rcases hs with h | h | h <;> subst h <;> simp [sourceLabel]

theorem singleRelocate_lines_shape (opts : Options) (env : Env) (src : Pth)
    (fs : List Pth) (p : Pth) (rel : String) (source : Option String)
    (dirname : String)
    (hs : source = some "exif" ∨ source = some "mtime" ∨ source = none) :
    ∀ l ∈ (singleRelocate opts env src fs p rel source dirname).1,
      relocLineShape opts l ∨ ∃ r e, l = "Error with " ++ r ++ ": " ++ e := by
  intro l hl
  simp only [singleRelocate] at hl
  split at hl
  · simp at hl
    exact Or.inr ⟨rel, _, hl⟩
  · simp at hl
    exact Or.inl ⟨rel, dirname, _, _, option_label_cases source hs, hl⟩

/-- C9 amended: every line the pairs loop emits is either of the actual
relocation shape — action verb, relative source, two-space arrow,
folder slash name, then a label that is the provenance rendering
space-parenthesis-exif or space-parenthesis-mtime for the master, empty
for a master relocated without a date, or the fixed words paired with
photo for every companion video — or a Skipping line; every line the
singles loop emits is of the relocation shape, a Skipping line or an
Error line.  Companion videos and undated files therefore do not carry
a provenance tag of their own. -/
theorem C9_outcome_line_shapes (opts : Options) (env : Env) (src : Pth)
    (fs : List Pth) (pr : Pth × List Pth) (p : Pth) :
    (∀ l ∈ (processPair opts env src fs pr).1,
      relocLineShape opts l ∨ ∃ r, l = "Skipping (no date found): " ++ r) ∧
    (∀ l ∈ (processSingle opts env src fs p).1,
      relocLineShape opts l ∨ (∃ r, l = "Skipping (no date found): " ++ r) ∨
      ∃ r e, l = "Error with " ++ r ++ ": " ++ e) := by
  constructor
  · intro l hl
    simp only [processPair] at hl
    split at hl
    · simp at hl
      refine Or.inr ⟨relStr src pr.1 ++ (" (+ " ++ natStr pr.2.length ++ " video)"), ?_⟩
      rw [hl]
      simp [String.append_assoc]
    · split at hl
      · simp at hl
      · rcases List.mem_cons.mp hl with h | h
        · exact Or.inl ⟨relStr src pr.1, _, _, _,
            option_label_cases _ (resolve_pair_date_source env pr.1), h⟩
        · exact Or.inl (processVideos_lines_shape opts env src _ _ pr.2 _ l h)
  · intro l hl
    simp only [processSingle] at hl
    split at hl
    · rcases singleRelocate_lines_shape opts env src fs p (relStr src p)
          (resolve_single_date env p).2 _ (resolve_single_date_source env p) l hl
        with h | h
      · exact Or.inl h
      · exact Or.inr (Or.inr h)
    · split at hl
      · simp at hl
        exact Or.inr (Or.inl ⟨relStr src p, hl⟩)
      · rcases singleRelocate_lines_shape opts env src fs p (relStr src p)
            (resolve_single_date env p).2 _ (resolve_single_date_source env p) l hl
          with h | h
        · exact Or.inl h
        · exact Or.inr (Or.inr h)

/-- Witness for C9 amended: the relocation line of a concrete single is
of the actual shape. -/
theorem C9_outcome_line_shapes_witness :
    relocLineShape ⟨false, false, true⟩
      "Moved: B.jpg  ->  2021-05/B.jpg (exif)" ∨
    (∃ r, "Moved: B.jpg  ->  2021-05/B.jpg (exif)"
      = "Skipping (no date found): " ++ r) ∨
    ∃ r e, "Moved: B.jpg  ->  2021-05/B.jpg (exif)"
      = "Error with " ++ r ++ ": " ++ e :=
  (C9_outcome_line_shapes ⟨false, false, true⟩
    ⟨fun p => if p = ["s", "B.jpg"] then
        some [("DateTimeOriginal", "2021:05:06 07:08:09")] else none,
      fun _ => none, fun _ => none⟩
    ["s"] [["s"], ["s", "B.jpg"]] ((["s", "B.jpg"], []))
    ["s", "B.jpg"]).2
    "Moved: B.jpg  ->  2021-05/B.jpg (exif)" (by decide)

/-- C9 counterexample: the outcome line of a companion video ends with
the fixed words paired with photo, not with a parenthesized provenance
tag, so the claimed fixed shape with a provenance tag for every
relocated file is violated; the run producing that line is exhibited in
full. -/
theorem C9_companion_line_has_no_provenance :
    (runWorker ⟨false, false, true⟩
      ⟨fun p => if p = ["s", "IMG.jpg"] then
          some [("DateTimeOriginal", "2021:05:06 07:08:09")] else none,
        fun _ => none, fun _ => none⟩
      ["s"] [["s", "IMG.jpg"], ["s", "IMG.mov"]]
      [["s"], ["s", "IMG.jpg"], ["s", "IMG.mov"]]).1
      = ["Moved: IMG.jpg  ->  2021-05/IMG.jpg (exif)",
         "Moved: IMG.mov  ->  2021-05/IMG.mov (paired with photo)", "Done!"] ∧
    ¬ ∃ (x prov : String), prov ∈ (["exif", "mtime", "none"] : List String) ∧
      "Moved: IMG.mov  ->  2021-05/IMG.mov (paired with photo)"
        = x ++ (" (" ++ prov ++ ")") := by
  constructor
  · decide
  · rintro ⟨x, prov, hmem, heq⟩
    have hd : ("Moved: IMG.mov  ->  2021-05/IMG.mov (paired with photo)" : String).data
        = x.data ++ (" (" ++ prov ++ ")").data := by
      rw [heq]
      rfl
    have hsuf : List.IsSuffix (" (" ++ prov ++ ")").data
        ("Moved: IMG.mov  ->  2021-05/IMG.mov (paired with photo)" : String).data :=
      ⟨x.data, hd.symm⟩
    simp at hmem
    rcases hmem with h | h | h <;> subst h <;> revert hsuf <;> decide

end Sortex

example : Sortex.natStr 2021 = "2021" := by decide

example :
    Sortex.pair_live_photos [["s", "IMG_01.jpg"], ["s", "IMG_01.mov"], ["s", "IMG_02.jpg"]]
      = ([(["s", "IMG_01.jpg"], [["s", "IMG_01.mov"]])], [["s", "IMG_02.jpg"]]) := by
  decide

example :
    Sortex.pair_live_photos [["s", "IMG.png"], ["s", "IMG.jpg"], ["s", "IMG.mov"]]
      = ([(["s", "IMG.jpg"], [["s", "IMG.mov"]])], []) := by
  decide
example : Sortex.pad2 5 = "05" := by decide
example : Sortex.build_target_dirname ⟨2021, 5, 6, 7, 8, 9⟩ = "2021-05" := by decide
example : Sortex.build_target_dirname ⟨500, 1, 2, 3, 4, 5⟩ = "500-01" := by decide
example : Sortex.parse_exif_datetime "2021:05:06 07:08:09" = some ⟨2021, 5, 6, 7, 8, 9⟩ := by decide
example : Sortex.parse_exif_datetime "2021:05:06 07:08" = some ⟨2021, 5, 6, 7, 8, 0⟩ := by decide
example : Sortex.parse_exif_datetime "2021-05-06 07:08:09" = some ⟨2021, 5, 6, 7, 8, 9⟩ := by decide
example : Sortex.parse_exif_datetime "0500:01:02 03:04:05" = some ⟨500, 1, 2, 3, 4, 5⟩ := by decide
example : Sortex.parse_exif_datetime "2021:02:30 07:08:09" = none := by decide
example : Sortex.parse_exif_datetime "garbage" = none := by decide
example : Sortex.is_image_file ["d", "IMG.jpg"] = true := by decide
example : Sortex.is_video_file ["d", "IMG.mov"] = true := by decide
example : Sortex.stemOf ["d", "IMG.mov"] = "IMG" := by decide
